import Mathlib

/-!
# Verification of the esub client's persistent session core (`src/esub.py`)

A shallow embedding of the persistent publish/subscribe session manager of
the esub client, together with proofs about its protocol behaviour.

Modelling conventions:

* Python strings are `String`; an optional string (`None` possible) is
  `Option String`.  Python truthiness of such a value (`x or y`) is embedded
  by `truthy` / `pyOr`.
* The duplex transport is an oracle `net : Nat → Option String`: the `k`-th
  transport operation (send or receive, counted together in program order)
  either succeeds (`some s`, where `s` is the received payload for a
  receive, and is ignored for a send) or raises (`none`).
* A session run is a trace of observable events (`Ev`) plus a result.
  `Ev.close` records that the connection was closed (the `async with`
  context manager closes the websocket when the coroutine exits, normally
  or by exception).
* `keepalive` is a separate background task; its timing behaviour is
  modelled by `keepaliveTimes` (the `n`-th unsolicited pong is sent after
  `n + 1` sleep periods).
-/

namespace Esub

/-- Python truthiness of an optional string: `None` and `""` are falsy. -/
def truthy : Option String → Bool
  | none => false
  | some s => !(s == "")

/-- Python `a or b` on optional strings: `a` when truthy, otherwise `b`. -/
def pyOr (a b : Option String) : Option String :=
  if truthy a then a else b

/-- One item yielded by the producer function of a publish session:
a `(key, token, psub, data)` tuple as consumed by `publish`. -/
structure Item where
  key : Option String
  token : Option String
  psub : Bool
  data : String
deriving DecidableEq, Repr

/-- The Message Envelope serialized by `publish` for one producer item
(`src/esub.py` lines 247-252): field resolution is
`sub or msg_sub`, `token or msg_token or TOKEN`, `psub or msg_psub`. -/
structure Envelope where
  key : Option String
  token : Option String
  psub : Bool
  data : String
deriving DecidableEq, Repr

/-- The envelope `publish` builds for item `it` under session defaults
`sub`/`token`/`psub` and process-wide default token `TOKEN`
(embedding of the `json.dumps({...})` argument in `src/esub.py`). -/
def mkEnvelope (sub token : Option String) (psub : Bool)
    (TOKEN : Option String) (it : Item) : Envelope :=
  { key := pyOr sub it.key
    token := pyOr token (pyOr it.token TOKEN)
    psub := psub || it.psub
    data := it.data }

/-- Observable events of a session run. -/
inductive Ev
  /-- `websocket.send(json.dumps(envelope))` in `publish`. -/
  | sendE (e : Envelope)
  /-- `websocket.recv()` in `publish` (confirmation) or `receive`. -/
  | recvE (m : String)
  /-- `callback(msg_data, msg)` in `publish`. -/
  | cb2 (dataSent confirmation : String)
  /-- `callback(message)` in `receive`. -/
  | cb1 (m : String)
  /-- `websocket.send("ok")` in `receive` (confirmation mode ack). -/
  | sendOk
  /-- `asyncio.ensure_future(keepalive(websocket))` in `receive`. -/
  | startPinger
  /-- `pinger.cancel()` in `receive`'s exception handler. -/
  | cancelPinger
  /-- Connection closed (context-manager exit / close on error path). -/
  | close
deriving DecidableEq, Repr

/-- Whether a session run finished normally or raised to the caller. -/
inductive SessionResult
  | ok
  | error
deriving DecidableEq, Repr

/-- The loop body of `publish` (`src/esub.py` lines 245-256), as a trace
producer.  `net k` is the outcome of the `k`-th transport operation.
Each item: send the envelope; in confirmation mode additionally receive one
confirmation and invoke the callback.  The first failing operation aborts
the loop; the exception handler closes the connection and re-raises. -/
def publishLoop (confirm : Bool) (sub token : Option String) (psub : Bool)
    (TOKEN : Option String) (net : Nat → Option String) :
    List Item → Nat → List Ev × SessionResult
  | [], _ => ([Ev.close], .ok)
  | it :: rest, k =>
    match net k with
    | none => ([Ev.close], .error)
    | some _ =>
      let e := mkEnvelope sub token psub TOKEN it
      if confirm then
        match net (k + 1) with
        | none => ([Ev.sendE e, Ev.close], .error)
        | some m =>
          let r := publishLoop confirm sub token psub TOKEN net rest (k + 2)
          (Ev.sendE e :: Ev.recvE m :: Ev.cb2 it.data m :: r.1, r.2)
      else
        let r := publishLoop confirm sub token psub TOKEN net rest (k + 1)
        (Ev.sendE e :: r.1, r.2)

/-- A whole `publish` session over a finite producer sequence. -/
def publishRun (confirm : Bool) (sub token : Option String) (psub : Bool)
    (TOKEN : Option String) (net : Nat → Option String) (items : List Item) :
    List Ev × SessionResult :=
  publishLoop confirm sub token psub TOKEN net items 0

/-- Whether the receive loop was still running when the observation window
(fuel) ended, or had already raised. -/
inductive Outcome
  | error
  | running
deriving DecidableEq, Repr

/-- The `while True` loop of `receive` (`src/esub.py` lines 276-280), as a
trace producer observed for `fuel` iterations.  `net k` is the outcome of
the `k`-th transport operation; `cbFail i` tells whether the delivery
callback raises on the `i`-th message.  Each iteration: receive a message,
invoke the callback, and in confirmation mode send the `"ok"` ack. -/
def receiveLoop (confirm : Bool) (net : Nat → Option String)
    (cbFail : Nat → Bool) : Nat → Nat → Nat → List Ev × Outcome
  | 0, _, _ => ([], .running)
  | fuel + 1, k, i =>
    match net k with
    | none => ([], .error)
    | some m =>
      if cbFail i then ([Ev.recvE m], .error)
      else if confirm then
        match net (k + 1) with
        | none => ([Ev.recvE m, Ev.cb1 m], .error)
        | some _ =>
          let r := receiveLoop confirm net cbFail fuel (k + 2) (i + 1)
          (Ev.recvE m :: Ev.cb1 m :: Ev.sendOk :: r.1, r.2)
      else
        let r := receiveLoop confirm net cbFail fuel (k + 1) (i + 1)
        (Ev.recvE m :: Ev.cb1 m :: r.1, r.2)

/-- A whole `receive` session (`src/esub.py` lines 263-285) observed for
`fuel` loop iterations: when confirmation mode is disabled the keepalive
pinger is started first; on any exception the pinger (if started) is
cancelled, the connection is closed, and the exception propagates. -/
def receiveRun (confirm : Bool) (net : Nat → Option String)
    (cbFail : Nat → Bool) (fuel : Nat) : List Ev × Outcome :=
  let pre : List Ev := if confirm then [] else [Ev.startPinger]
  let r := receiveLoop confirm net cbFail fuel 0 0
  match r.2 with
  | .error =>
    (pre ++ r.1 ++ (if confirm then [] else [Ev.cancelPinger]) ++ [Ev.close],
      .error)
  | .running => (pre ++ r.1, .running)

/-- `CONFIRM = bool(os.environ.get("ESUB_CONFIRM_RECEIPT") not in (None, "", "0"))`
(`src/esub.py` line 46).  `env` is the raw value of `ESUB_CONFIRM_RECEIPT`
(`none` when unset). -/
def CONFIRM (env : Option String) : Bool :=
  !(env == none || env == some "" || env == some "0")

/-- `PING_FREQUENCY = int(os.environ.get("ESUB_PING_FREQUENCY") or 60) * 0.9`
(`src/esub.py` line 47).  `hint` is the already-parsed integer value of
`ESUB_PING_FREQUENCY` (`none` when the variable is unset or empty, in which
case `or 60` supplies the default); the float arithmetic is modelled over
`ℚ`. -/
def PING_FREQUENCY (hint : Option Int) : ℚ :=
  ((hint.getD 60 : Int) : ℚ) * (9 / 10)

/-- Time of the `n`-th liveness pong of `keepalive` (`src/esub.py` lines
228-234), counting from `n = 0`, relative to the start of the task: the
loop sleeps `P` seconds, then pongs, forever. -/
def keepaliveTimes (P : ℚ) (n : Nat) : ℚ :=
  (n + 1) * P

/-- Direction of a wire frame, for stating alternation properties. -/
inductive Dir
  | out
  | inn
deriving DecidableEq, Repr

/-- Projection of a trace onto wire activity: sends (`sendE`, `sendOk`)
become `Dir.out`, receives become `Dir.inn`; callbacks, task management and
close are not wire frames. -/
def wireOf : List Ev → List Dir
  | [] => []
  | Ev.sendE _ :: t => Dir.out :: wireOf t
  | Ev.sendOk :: t => Dir.out :: wireOf t
  | Ev.recvE _ :: t => Dir.inn :: wireOf t
  | _ :: t => wireOf t

/-- The envelopes sent over the transport in a trace, in order. -/
def sendsOf : List Ev → List Envelope
  | [] => []
  | Ev.sendE e :: t => e :: sendsOf t
  | _ :: t => sendsOf t

/-- The envelope resolution the specification text asserts for a publish
item: item-level key/token/psub take precedence over session-level
defaults, with the process-wide default token as final fallback.  This is
a rendering of the spec's words, to be compared with `mkEnvelope` (which is
embedded from the source). -/
def specItemFirstEnvelope (sub token : Option String) (psub : Bool)
    (TOKEN : Option String) (it : Item) : Envelope :=
  { key := pyOr it.key sub
    token := pyOr it.token (pyOr token TOKEN)
    psub := it.psub || psub
    data := it.data }

/-- The envelope resolution stated by the amended claim: the session-level
value takes precedence over the item-level value, which takes precedence
over no value, with the process-wide default token as final fallback for
the token.  Rendered from those words, to be compared with `mkEnvelope`. -/
def specSessionFirstEnvelope (sub token : Option String) (psub : Bool)
    (TOKEN : Option String) (it : Item) : Envelope :=
  { key := pyOr sub it.key
    token := pyOr token (pyOr it.token TOKEN)
    psub := psub || it.psub
    data := it.data }

/-- Strict send/receive alternation: `n` repetitions of one outgoing frame
followed by one incoming frame. -/
def alt : Nat → List Dir
  | 0 => []
  | n + 1 => Dir.out :: Dir.inn :: alt n

/-- Confirmation-mode delivery blocks on the subscribe side: for each
delivered message, receive it, invoke the callback with it, then send the
`"ok"` acknowledgement, before the next message. -/
def ackBlocks : List String → List Ev
  | [] => []
  | m :: ms => Ev.recvE m :: Ev.cb1 m :: Ev.sendOk :: ackBlocks ms

/-- Outcome of a driven session, as seen by the caller of `psub`/`prep`:
the session's own result, a timeout failure, or still waiting (only
possible when no timeout was given). -/
inductive DriveOutcome
  | result (r : SessionResult)
  | timedOut
  | running
deriving DecidableEq, Repr

/-- The cleanup that cancellation runs inside `receive`/`publish`
(`src/esub.py` lines 258-260 and 281-285): the bare exception handler
cancels the pinger when one was started, and the connection is closed by
the context manager before the failure leaves the coroutine.  `sofar` is
the trace of events the session had produced when it was cancelled. -/
def cancelCleanup (confirm : Bool) (sofar : List Ev) : List Ev :=
  sofar ++ (if confirm then [] else [Ev.cancelPinger]) ++ [Ev.close]

/-- The session driver of `psub`/`prep` (`src/esub.py` lines 193-194 and
221-225): `loop.run_until_complete(asyncio.wait_for(session, timeout))`,
with `asyncio.wait_for`'s documented semantics embedded.  `tmo` is the
timeout argument (`none` = wait indefinitely), `dur` the session's own
completion time (`none` = it never completes on its own), `full` its trace
and result when run to completion, `sofar` its trace at the moment the
timeout fires.  On expiry before completion the in-flight task is
cancelled, its cleanup runs, and a timeout failure distinct from the
session's own failures is raised. -/
def sessionDriver (tmo : Option ℚ) (confirm : Bool) (dur : Option ℚ)
    (full : List Ev × SessionResult) (sofar : List Ev) :
    DriveOutcome × List Ev :=
  match tmo, dur with
  | none, none => (.running, sofar)
  | none, some _ => (.result full.2, full.1)
  | some _, none => (.timedOut, cancelCleanup confirm sofar)
  | some T, some d =>
    if d ≤ T then (.result full.2, full.1)
    else (.timedOut, cancelCleanup confirm sofar)

/- ## Helper lemmas about `publishLoop` -/

/-- Every `publish` run ends by closing the connection. -/
lemma publishLoop_close (confirm : Bool) (sub token : Option String)
    (psub : Bool) (TOKEN : Option String) (net : Nat → Option String)
    (items : List Item) :
    ∀ k, ∃ pre,
      (publishLoop confirm sub token psub TOKEN net items k).1 =
        pre ++ [Ev.close] := by
  induction items with
  | nil => intro k; exact ⟨[], rfl⟩
  | cons it rest ih =>
    intro k
    cases hm : net k with
    | none => exact ⟨[], by simp [publishLoop, hm]⟩
    | some v =>
      cases confirm with
      | false =>
        obtain ⟨pre, hpre⟩ := ih (k + 1)
        exact ⟨Ev.sendE (mkEnvelope sub token psub TOKEN it) :: pre,
          by simp [publishLoop, hm, hpre]⟩
      | true =>
        cases hm2 : net (k + 1) with
        | none =>
          exact ⟨[Ev.sendE (mkEnvelope sub token psub TOKEN it)],
            by simp [publishLoop, hm, hm2]⟩
        | some m =>
          obtain ⟨pre, hpre⟩ := ih (k + 2)
          exact ⟨Ev.sendE (mkEnvelope sub token psub TOKEN it) ::
              Ev.recvE m :: Ev.cb2 it.data m :: pre,
            by simp [publishLoop, hm, hm2, hpre]⟩

/-- The envelopes a `publish` run sends are always an in-order prefix of
the envelopes of the full producer sequence: no envelope is re-sent and
nothing is sent past the first failure. -/
lemma sendsOf_publishLoop_take (confirm : Bool) (sub token : Option String)
    (psub : Bool) (TOKEN : Option String) (net : Nat → Option String)
    (items : List Item) :
    ∀ k, ∃ n,
      sendsOf (publishLoop confirm sub token psub TOKEN net items k).1 =
        (items.map (mkEnvelope sub token psub TOKEN)).take n := by
  induction items with
  | nil => intro k; exact ⟨0, rfl⟩
  | cons it rest ih =>
    intro k
    cases hm : net k with
    | none => exact ⟨0, by simp [publishLoop, hm, sendsOf]⟩
    | some v =>
      cases confirm with
      | false =>
        obtain ⟨n, hn⟩ := ih (k + 1)
        exact ⟨n + 1, by simp [publishLoop, hm, sendsOf, hn]⟩
      | true =>
        cases hm2 : net (k + 1) with
        | none => exact ⟨1, by simp [publishLoop, hm, hm2, sendsOf]⟩
        | some m =>
          obtain ⟨n, hn⟩ := ih (k + 2)
          exact ⟨n + 1, by simp [publishLoop, hm, hm2, sendsOf, hn]⟩

/-- On a fully successful run without confirmation mode, `publish` emits
exactly one envelope per item, in order, and closes. -/
lemma publishLoop_false_success (sub token : Option String) (psub : Bool)
    (TOKEN : Option String) (net : Nat → Option String)
    (hnet : ∀ k, net k ≠ none) (items : List Item) :
    ∀ k, publishLoop false sub token psub TOKEN net items k =
      (items.map (fun it => Ev.sendE (mkEnvelope sub token psub TOKEN it))
        ++ [Ev.close], .ok) := by
  induction items with
  | nil => intro k; rfl
  | cons it rest ih =>
    intro k
    cases hm : net k with
    | none => exact absurd hm (hnet k)
    | some v => simp [publishLoop, hm, ih (k + 1)]

/-- On a fully successful run in confirmation mode, the wire activity of
`publish` is a strict send/receive alternation of length twice the number
of items. -/
lemma wireOf_publishLoop_true (sub token : Option String) (psub : Bool)
    (TOKEN : Option String) (net : Nat → Option String)
    (hnet : ∀ k, net k ≠ none) (items : List Item) :
    ∀ k, wireOf (publishLoop true sub token psub TOKEN net items k).1 =
      alt items.length := by
  induction items with
  | nil => intro k; rfl
  | cons it rest ih =>
    intro k
    cases hm : net k with
    | none => exact absurd hm (hnet k)
    | some v =>
      cases hm2 : net (k + 1) with
      | none => exact absurd hm2 (hnet (k + 1))
      | some m => simp [publishLoop, hm, hm2, wireOf, alt, ih (k + 2)]

/-- `alt n` has as many outgoing as incoming frames. -/
lemma alt_count (n : Nat) :
    (alt n).count Dir.out = n ∧ (alt n).count Dir.inn = n := by
  induction n with
  | zero => exact ⟨rfl, rfl⟩
  | succ m ih => simp [alt, List.count_cons, ih.1, ih.2]

/- ## Helper lemmas about `receiveLoop` -/

/-- On a fully successful run in confirmation mode, the subscribe loop
produces one receive/callback/ack block per delivered message and keeps
running. -/
lemma receiveLoop_true_blocks (net : Nat → Option String)
    (cbFail : Nat → Bool) (hnet : ∀ k, net k ≠ none)
    (hcb : ∀ i, cbFail i = false) (fuel : Nat) :
    ∀ k i, ∃ ms : List String,
      receiveLoop true net cbFail fuel k i = (ackBlocks ms, .running) ∧
        ms.length = fuel := by
  induction fuel with
  | zero => intro k i; exact ⟨[], rfl, rfl⟩
  | succ f ih =>
    intro k i
    cases hm : net k with
    | none => exact absurd hm (hnet k)
    | some m =>
      cases hm2 : net (k + 1) with
      | none => exact absurd hm2 (hnet (k + 1))
      | some v =>
        obtain ⟨ms, hms, hlen⟩ := ih (k + 2) (i + 1)
        exact ⟨m :: ms,
          by simp [receiveLoop, hm, hm2, hcb i, ackBlocks, hms], by simp [hlen]⟩

/-- The subscribe loop itself never starts a pinger. -/
lemma startPinger_not_mem_receiveLoop (confirm : Bool)
    (net : Nat → Option String) (cbFail : Nat → Bool) (fuel : Nat) :
    ∀ k i, Ev.startPinger ∉ (receiveLoop confirm net cbFail fuel k i).1 := by
  induction fuel with
  | zero => intro k i; simp [receiveLoop]
  | succ f ih =>
    intro k i
    cases hm : net k with
    | none => simp [receiveLoop, hm]
    | some m =>
      cases hcb : cbFail i with
      | true => simp [receiveLoop, hm, hcb]
      | false =>
        cases confirm with
        | false => simp [receiveLoop, hm, hcb, ih (k + 1) (i + 1)]
        | true =>
          cases hm2 : net (k + 1) with
          | none => simp [receiveLoop, hm, hcb, hm2]
          | some v => simp [receiveLoop, hm, hcb, hm2, ih (k + 2) (i + 1)]

/-- Without confirmation mode the subscribe loop never sends an
acknowledgement. -/
lemma sendOk_not_mem_receiveLoop_false (net : Nat → Option String)
    (cbFail : Nat → Bool) (fuel : Nat) :
    ∀ k i, Ev.sendOk ∉ (receiveLoop false net cbFail fuel k i).1 := by
  induction fuel with
  | zero => intro k i; simp [receiveLoop]
  | succ f ih =>
    intro k i
    cases hm : net k with
    | none => simp [receiveLoop, hm]
    | some m =>
      cases hcb : cbFail i with
      | true => simp [receiveLoop, hm, hcb]
      | false => simp [receiveLoop, hm, hcb, ih (k + 1) (i + 1)]

/-- In confirmation mode, as soon as one message is delivered successfully
the subscribe loop has sent an acknowledgement. -/
lemma sendOk_mem_receiveLoop_true (net : Nat → Option String)
    (cbFail : Nat → Bool) (fuel k i : Nat) (hf : 1 ≤ fuel)
    (hm : net k ≠ none) (hm2 : net (k + 1) ≠ none) (hcb : cbFail i = false) :
    Ev.sendOk ∈ (receiveLoop true net cbFail fuel k i).1 := by
  cases fuel with
  | zero => exact absurd hf (by simp)
  | succ f =>
    cases hv : net k with
    | none => exact absurd hv hm
    | some m =>
      cases hv2 : net (k + 1) with
      | none => exact absurd hv2 hm2
      | some v => simp [receiveLoop, hv, hv2, hcb]

/-- On a fully successful run, `publish` sends exactly the envelope of each
producer item, in order. -/
lemma sendsOf_publishLoop_success (confirm : Bool) (sub token : Option String)
    (psub : Bool) (TOKEN : Option String) (net : Nat → Option String)
    (hnet : ∀ k, net k ≠ none) (items : List Item) :
    ∀ k, sendsOf (publishLoop confirm sub token psub TOKEN net items k).1 =
      items.map (mkEnvelope sub token psub TOKEN) := by
  induction items with
  | nil => intro k; rfl
  | cons it rest ih =>
    intro k
    cases hm : net k with
    | none => exact absurd hm (hnet k)
    | some v =>
      cases confirm with
      | false => simp [publishLoop, hm, sendsOf, ih (k + 1)]
      | true =>
        cases hm2 : net (k + 1) with
        | none => exact absurd hm2 (hnet (k + 1))
        | some m => simp [publishLoop, hm, hm2, sendsOf, ih (k + 2)]

/- ## Claim theorems -/

/-- C10: Confirmation Mode, read from `ESUB_CONFIRM_RECEIPT`, is enabled
iff the variable is set to a non-empty string other than `"0"`; in
particular `"false"` and `"no"` enable it, while unset, empty, or `"0"`
disable it. -/
theorem confirm_env_semantics :
    (∀ env : Option String,
      CONFIRM env = true ↔ ∃ s, env = some s ∧ s ≠ "" ∧ s ≠ "0") ∧
    CONFIRM (some "false") = true ∧ CONFIRM (some "no") = true ∧
    CONFIRM none = false ∧ CONFIRM (some "") = false ∧
    CONFIRM (some "0") = false := by
  refine ⟨fun env => ?_, by decide, by decide, rfl, by decide, by decide⟩
  cases env with
  | none => simp [CONFIRM]
  | some s => simp [CONFIRM, not_or]

/-- C9: the liveness monitor's period is 90% of the idle-timeout hint, the
hint defaults to 60 (default period 54 s), and the monitor emits exactly
one probe per elapsed period: the first pong comes one period after start
and consecutive pongs are exactly one period apart. -/
theorem ping_frequency_period :
    PING_FREQUENCY none = 54 ∧
    (∀ h : Int, PING_FREQUENCY (some h) = (h : ℚ) * (9 / 10)) ∧
    (∀ P : ℚ, keepaliveTimes P 0 = P) ∧
    (∀ (P : ℚ) (n : Nat),
      keepaliveTimes P (n + 1) - keepaliveTimes P n = P) := by
  refine ⟨by norm_num [PING_FREQUENCY], fun h => rfl,
    fun P => by simp [keepaliveTimes], fun P n => ?_⟩
  simp only [keepaliveTimes]
  push_cast
  ring

/-- C1 counterexample: with session key `"s"` and item key `"i"`, the
envelope actually sent carries key `"s"` — the session-level value — so
the item-level value does not take precedence as the claim states. -/
theorem publish_envelope_item_precedence_false :
    sendsOf (publishRun false (some "s") (some "st") false (some "T")
        (fun _ => some "") [⟨some "i", some "it", false, "d"⟩]).1 ≠
      [specItemFirstEnvelope (some "s") (some "st") false (some "T")
        ⟨some "i", some "it", false, "d"⟩] := by
  decide

/-- C1 (amended): for every item yielded by the producer, the envelope
sent over the transport resolves key, token and psub-flag by letting the
session-level value take precedence over the item-level value, which takes
precedence over no value, the process-wide default token being the final
fallback for token. -/
theorem publish_envelope_session_precedence (confirm : Bool)
    (sub token : Option String) (psub : Bool) (TOKEN : Option String)
    (net : Nat → Option String) (items : List Item)
    (hnet : ∀ k, net k ≠ none) :
    sendsOf (publishRun confirm sub token psub TOKEN net items).1 =
      items.map (specSessionFirstEnvelope sub token psub TOKEN) := by
  have h := sendsOf_publishLoop_success confirm sub token psub TOKEN net
    hnet items 0
  have he : mkEnvelope sub token psub TOKEN =
      specSessionFirstEnvelope sub token psub TOKEN := rfl
  rw [publishRun, h, he]

/-- Witness for C1's theorem at a concrete producer item. -/
theorem publish_envelope_session_precedence_witness :
    (∀ k : Nat, (fun _ : Nat => (some "c" : Option String)) k ≠ none) ∧
    sendsOf (publishRun true (some "s") none true (some "T")
        (fun _ => some "c") [⟨some "i", some "it", false, "d"⟩]).1 =
      [(⟨some "i", some "it", false, "d"⟩ : Item)].map
        (specSessionFirstEnvelope (some "s") none true (some "T")) :=
  ⟨fun k => by simp,
    publish_envelope_session_precedence true (some "s") none true (some "T")
      (fun _ => some "c") [⟨some "i", some "it", false, "d"⟩]
      (fun k => by simp)⟩

/-- C8: with Confirmation Mode disabled, a successful publish session's
trace is exactly one envelope send per producer item, in order, followed by
the close — in particular no receive happens between sends and no liveness
monitor is ever started on the publish side. -/
theorem publish_noconfirm_sends_only (sub token : Option String)
    (psub : Bool) (TOKEN : Option String) (net : Nat → Option String)
    (items : List Item) (hnet : ∀ k, net k ≠ none) :
    (publishRun false sub token psub TOKEN net items).1 =
      items.map (fun it => Ev.sendE (mkEnvelope sub token psub TOKEN it))
        ++ [Ev.close] ∧
    (∀ m, Ev.recvE m ∉ (publishRun false sub token psub TOKEN net items).1) ∧
    Ev.startPinger ∉ (publishRun false sub token psub TOKEN net items).1 := by
  have h0 : (publishRun false sub token psub TOKEN net items).1 =
      items.map (fun it => Ev.sendE (mkEnvelope sub token psub TOKEN it))
        ++ [Ev.close] := by
    rw [publishRun, publishLoop_false_success sub token psub TOKEN net hnet items 0]
  refine ⟨h0, fun m => ?_, ?_⟩
  · rw [h0]; simp
  · rw [h0]; simp

/-- Witness for C8's theorem on a two-item producer sequence. -/
theorem publish_noconfirm_sends_only_witness :
    (∀ k : Nat, (fun _ : Nat => (some "" : Option String)) k ≠ none) ∧
    (publishRun false (some "k") (some "t") false none (fun _ => some "")
        [⟨none, none, false, "a"⟩, ⟨none, none, false, "b"⟩]).1 =
      [(⟨none, none, false, "a"⟩ : Item), ⟨none, none, false, "b"⟩].map
        (fun it => Ev.sendE (mkEnvelope (some "k") (some "t") false none it))
        ++ [Ev.close] :=
  ⟨fun k => by simp,
    (publish_noconfirm_sends_only (some "k") (some "t") false none
      (fun _ => some "")
      [⟨none, none, false, "a"⟩, ⟨none, none, false, "b"⟩]
      (fun k => by simp)).1⟩

/-- C3: with Confirmation Mode enabled, a successful publish session's
wire activity strictly alternates one send with one confirmation receive,
so the number of frames sent equals the number of confirmation frames
received and no unconfirmed send is pipelined. -/
theorem publish_confirm_alternation (sub token : Option String)
    (psub : Bool) (TOKEN : Option String) (net : Nat → Option String)
    (items : List Item) (hnet : ∀ k, net k ≠ none) :
    wireOf (publishRun true sub token psub TOKEN net items).1 =
      alt items.length ∧
    (wireOf (publishRun true sub token psub TOKEN net items).1).count
        Dir.out =
      (wireOf (publishRun true sub token psub TOKEN net items).1).count
        Dir.inn := by
  have h : wireOf (publishRun true sub token psub TOKEN net items).1 =
      alt items.length := by
    rw [publishRun]
    exact wireOf_publishLoop_true sub token psub TOKEN net hnet items 0
  refine ⟨h, ?_⟩
  rw [h, (alt_count items.length).1, (alt_count items.length).2]

/-- Witness for C3's theorem on a two-item producer sequence. -/
theorem publish_confirm_alternation_witness :
    (∀ k : Nat, (fun _ : Nat => (some "c" : Option String)) k ≠ none) ∧
    wireOf (publishRun true none none false none (fun _ => some "c")
        [⟨some "k", none, false, "a"⟩, ⟨some "k", none, false, "b"⟩]).1 =
      alt 2 :=
  ⟨fun k => by simp,
    (publish_confirm_alternation none none false none (fun _ => some "c")
      [⟨some "k", none, false, "a"⟩, ⟨some "k", none, false, "b"⟩]
      (fun k => by simp)).1⟩

/-- C2: a publish session that fails with a send or receive error has
closed the connection before the failure reaches the caller (its trace
ends with the close), and the failed operation is not retried: the
envelopes sent are an in-order prefix of the producer's envelopes, each
sent at most once. -/
theorem publish_failure_closes_no_retry (confirm : Bool)
    (sub token : Option String) (psub : Bool) (TOKEN : Option String)
    (net : Nat → Option String) (items : List Item)
    (herr : (publishRun confirm sub token psub TOKEN net items).2 =
      .error) :
    (∃ pre, (publishRun confirm sub token psub TOKEN net items).1 =
      pre ++ [Ev.close]) ∧
    (∃ n, sendsOf (publishRun confirm sub token psub TOKEN net items).1 =
      (items.map (mkEnvelope sub token psub TOKEN)).take n) := by
  rw [publishRun]
  exact ⟨publishLoop_close confirm sub token psub TOKEN net items 0,
    sendsOf_publishLoop_take confirm sub token psub TOKEN net items 0⟩

/-- Witness for C2's theorem: the very first send fails. -/
theorem publish_failure_closes_no_retry_witness :
    (publishRun true (some "k") none false none (fun _ => none)
        [⟨none, none, false, "a"⟩]).2 = SessionResult.error ∧
    (∃ pre, (publishRun true (some "k") none false none (fun _ => none)
        [⟨none, none, false, "a"⟩]).1 = pre ++ [Ev.close]) :=
  ⟨by decide,
    (publish_failure_closes_no_retry true (some "k") none false none
      (fun _ => none) [⟨none, none, false, "a"⟩] (by decide)).1⟩

/-- C4: with Confirmation Mode enabled, a subscribe session's trace is a
sequence of blocks, one per delivered message: the message is received,
passed to the delivery callback, and answered with the `"ok"`
acknowledgement before the next message is awaited. -/
theorem receive_confirm_ack_each (net : Nat → Option String)
    (cbFail : Nat → Bool) (fuel : Nat) (hnet : ∀ k, net k ≠ none)
    (hcb : ∀ i, cbFail i = false) :
    ∃ ms : List String,
      receiveRun true net cbFail fuel = (ackBlocks ms, .running) ∧
        ms.length = fuel := by
  obtain ⟨ms, hms, hlen⟩ := receiveLoop_true_blocks net cbFail hnet hcb fuel 0 0
  exact ⟨ms, by simp [receiveRun, hms], hlen⟩

/-- Witness for C4's theorem over two delivered messages. -/
theorem receive_confirm_ack_each_witness :
    (∀ k : Nat, (fun _ : Nat => (some "m" : Option String)) k ≠ none) ∧
    (∀ i : Nat, (fun _ : Nat => false) i = false) ∧
    ∃ ms : List String,
      receiveRun true (fun _ => some "m") (fun _ => false) 2 =
        (ackBlocks ms, .running) ∧ ms.length = 2 :=
  ⟨fun k => by simp, fun i => rfl,
    receive_confirm_ack_each (fun _ => some "m") (fun _ => false) 2
      (fun k => by simp) (fun i => rfl)⟩

/-- C5: in a subscribe session, exactly one liveness mechanism is active:
the keepalive pinger is started iff Confirmation Mode is disabled, and
per-message acknowledgements are sent iff Confirmation Mode is enabled —
never both, never neither. -/
theorem receive_liveness_exclusive (confirm : Bool)
    (net : Nat → Option String) (cbFail : Nat → Bool) (fuel : Nat)
    (hnet : ∀ k, net k ≠ none) (hcb : ∀ i, cbFail i = false)
    (hfuel : 1 ≤ fuel) :
    (Ev.startPinger ∈ (receiveRun confirm net cbFail fuel).1 ↔
      confirm = false) ∧
    (Ev.sendOk ∈ (receiveRun confirm net cbFail fuel).1 ↔
      confirm = true) := by
  cases confirm with
  | false =>
    have hno := sendOk_not_mem_receiveLoop_false net cbFail fuel 0 0
    cases hr : (receiveLoop false net cbFail fuel 0 0).2 with
    | error => simp [receiveRun, hr, hno]
    | running => simp [receiveRun, hr, hno]
  | true =>
    have hs := startPinger_not_mem_receiveLoop true net cbFail fuel 0 0
    have hok := sendOk_mem_receiveLoop_true net cbFail fuel 0 0 hfuel
      (hnet 0) (hnet 1) (hcb 0)
    cases hr : (receiveLoop true net cbFail fuel 0 0).2 with
    | error => simp [receiveRun, hr, hs, hok]
    | running => simp [receiveRun, hr, hs, hok]

/-- Witness for C5's theorem in both confirmation modes. -/
theorem receive_liveness_exclusive_witness :
    (∀ k : Nat, (fun _ : Nat => (some "m" : Option String)) k ≠ none) ∧
    (Ev.startPinger ∈
        (receiveRun false (fun _ => some "m") (fun _ => false) 1).1 ↔
      False = false) ∧
    (Ev.sendOk ∈
        (receiveRun true (fun _ => some "m") (fun _ => false) 1).1 ↔
      True = true) := by
  have h1 := receive_liveness_exclusive false (fun _ => some "m")
    (fun _ => false) 1 (fun k => by simp) (fun i => rfl) (by simp)
  have h2 := receive_liveness_exclusive true (fun _ => some "m")
    (fun _ => false) 1 (fun k => by simp) (fun i => rfl) (by simp)
  exact ⟨fun k => by simp, by simpa using h1.1, by simpa using h2.2⟩

/-- C7: a subscribe session that terminates with a transport or
callback-raised error cancels the keepalive pinger (when one is running,
i.e. when Confirmation Mode is disabled) and closes the connection before
the error propagates: its trace ends with the cancellation followed by the
close. -/
theorem receive_error_cleanup (confirm : Bool) (net : Nat → Option String)
    (cbFail : Nat → Bool) (fuel : Nat)
    (herr : (receiveRun confirm net cbFail fuel).2 = .error) :
    ∃ pre, (receiveRun confirm net cbFail fuel).1 =
      pre ++ (if confirm then [Ev.close]
        else [Ev.cancelPinger, Ev.close]) := by
  cases hr : (receiveLoop confirm net cbFail fuel 0 0).2 with
  | running => simp [receiveRun, hr] at herr
  | error =>
    cases confirm with
    | false =>
      exact ⟨Ev.startPinger :: (receiveLoop false net cbFail fuel 0 0).1,
        by simp [receiveRun, hr]⟩
    | true =>
      exact ⟨(receiveLoop true net cbFail fuel 0 0).1,
        by simp [receiveRun, hr]⟩

/-- Witness for C7's theorem: the first receive fails with the pinger
running. -/
theorem receive_error_cleanup_witness :
    (receiveRun false (fun _ => none) (fun _ => false) 1).2 =
      Outcome.error ∧
    ∃ pre, (receiveRun false (fun _ => none) (fun _ => false) 1).1 =
      pre ++ [Ev.cancelPinger, Ev.close] := by
  have h := receive_error_cleanup false (fun _ => none) (fun _ => false) 1
    (by decide)
  exact ⟨by decide, by simpa using h⟩

/-- C6: the session driver waits indefinitely when no timeout is given
(it never reports a timeout, and with a never-completing session it keeps
waiting); when a timeout is given and elapses before the session
completes, the in-flight session task is cancelled and its cleanup runs,
the connection is closed exactly once, and the reported failure is a
timeout, distinct from every session-level failure. -/
theorem driver_timeout_semantics (tmo : Option ℚ) (confirm : Bool)
    (dur : Option ℚ) (full : List Ev × SessionResult) (sofar : List Ev)
    (hs : Ev.close ∉ sofar) :
    (tmo = none →
      (sessionDriver tmo confirm dur full sofar).1 ≠
        DriveOutcome.timedOut) ∧
    (tmo = none → dur = none →
      sessionDriver tmo confirm dur full sofar =
        (DriveOutcome.running, sofar)) ∧
    (∀ T, tmo = some T → (∀ d, dur = some d → T < d) →
      sessionDriver tmo confirm dur full sofar =
        (DriveOutcome.timedOut, cancelCleanup confirm sofar) ∧
      (cancelCleanup confirm sofar).count Ev.close = 1 ∧
      ∀ r, DriveOutcome.timedOut ≠ DriveOutcome.result r) := by
  have hcount : (cancelCleanup confirm sofar).count Ev.close = 1 := by
    cases confirm <;>
      simp [cancelCleanup, List.count_append, List.count_eq_zero.mpr hs]
  refine ⟨?_, ?_, ?_⟩
  · intro h
    subst h
    cases dur <;> simp [sessionDriver]
  · intro h hd
    subst h; subst hd
    rfl
  · intro T hT hd
    subst hT
    cases dur with
    | none => exact ⟨rfl, hcount, fun r => by simp⟩
    | some d =>
      have hlt : ¬d ≤ T := not_le.mpr (hd d rfl)
      exact ⟨by simp [sessionDriver, hlt], hcount, fun r => by simp⟩

/-- Witness for C6's theorem: a 5-second timeout on a session that would
take 7 seconds. -/
theorem driver_timeout_semantics_witness :
    Ev.close ∉ [Ev.startPinger] ∧
    sessionDriver (some 5) false (some 7) ([], SessionResult.ok)
        [Ev.startPinger] =
      (DriveOutcome.timedOut, cancelCleanup false [Ev.startPinger]) := by
  have h := driver_timeout_semantics (some 5) false (some 7)
    ([], SessionResult.ok) [Ev.startPinger] (by decide)
  refine ⟨by decide, (h.2.2 5 rfl fun d hd => ?_).1⟩
  rw [Option.some_inj] at hd
  rw [← hd]
  norm_num

end Esub
